import Mathlib

/-!
# Verification of the bithumb-tracker aggregation/distribution pipeline

Shallow embedding of the server core (`server.js` hardened variant):
the per-metric change computation, the upstream fetcher with partial-failure
tolerance, the SSE broadcast hub, the IP-blacklist middleware, the circuit
breaker, the periodic refresh cycle, and the coin-symbol validation pipeline.

JavaScript numbers are modelled as rationals (`ℚ`); the embedding covers the
finite-value domain (the IEEE non-finite spellings such as the string
"Infinity" are treated as non-numeric by the parser model).  Fallible
operations return `Option`/`Except`; the mutable server state is passed
explicitly through transition functions.
-/

/-- A JavaScript value as it can appear in a metric field of a coin record:
`null`, `undefined`, a (finite) number, or a string.  These are the shapes the
upstream JSON can put into `holders`, `circulation`, `holder_influence`,
`trader_influence`. -/
inductive JVal where
  | jnull
  | jundef
  | jnum (q : ℚ)
  | jstr (s : String)
  deriving DecidableEq, Repr

/-- JavaScript falsiness restricted to `JVal`: `null`, `undefined`, the number
`0`, and the empty string are falsy (`!v` is true). -/
def isFalsy : JVal → Bool
  | .jnull => true
  | .jundef => true
  | .jnum q => decide (q = 0)
  | .jstr s => decide (s = "")

/-- `String.replace(/,/g, '')`: drop every comma. -/
def stripCommas (s : String) : String :=
  ⟨s.data.filter (fun c => c ≠ ',')⟩

/-- Read a run of decimal digits from the front of the list, returning the
accumulated value, the number of digits read, and the rest of the input. -/
def readDigits : List Char → ℕ → ℕ → ℕ × ℕ × List Char
  | c :: cs, acc, n =>
    if c.isDigit then readDigits cs (acc * 10 + (c.toNat - 48)) (n + 1)
    else (acc, n, c :: cs)
  | [], acc, n => (acc, n, [])

/-- Read an optional sign; returns `true` for a leading minus. -/
def readSign : List Char → Bool × List Char
  | c :: cs =>
    if c = '-' then (true, cs)
    else if c = '+' then (false, cs)
    else (false, c :: cs)
  | [] => (false, [])

/-- JavaScript `parseFloat` on the finite-value domain: skip leading
whitespace, then parse the longest prefix of the form
`[+-]? digits [. digits] [eE [+-] digits]`; `none` models `NaN` (no numeric
prefix at all).  Non-finite spellings ("Infinity") are outside the rational
embedding and are treated as non-numeric. -/
def jsParseFloat (s : String) : Option ℚ :=
  let l := s.data.dropWhile Char.isWhitespace
  let sign := readSign l
  let intPart := readDigits sign.2 0 0
  let fracPart :=
    match intPart.2.2 with
    | c :: cs => if c = '.' then readDigits cs 0 0 else (0, 0, intPart.2.2)
    | [] => (0, 0, ([] : List Char))
  if intPart.2.1 + fracPart.2.1 = 0 then none
  else
    let mant : ℚ := (intPart.1 : ℚ) + (fracPart.1 : ℚ) / (10 : ℚ) ^ fracPart.2.1
    let expVal : ℤ :=
      match fracPart.2.2 with
      | c :: cs =>
        if c = 'e' ∨ c = 'E' then
          let esign := readSign cs
          let edig := readDigits esign.2 0 0
          if edig.2.1 = 0 then 0
          else if esign.1 then -(edig.1 : ℤ) else (edig.1 : ℤ)
        else 0
      | [] => 0
    let m : ℚ := mant * (10 : ℚ) ^ expVal
    some (if sign.1 then -m else m)

/-- `parseFloat(String(v).replace(/,/g, ''))` on a `JVal`.
`String(n)` of a finite number contains no comma and re-parses to the same
value, so the number case is the identity; `String(null) = "null"` and
`String(undefined) = "undefined"` parse to `NaN` (`none`). -/
def parseMetric : JVal → Option ℚ
  | .jnum q => some q
  | .jstr s => jsParseFloat (stripCommas s)
  | .jnull => none
  | .jundef => none

/-- Two-digit zero padding for the fractional part of `toFixed(2)`. -/
def pad2 (n : ℕ) : String :=
  if n < 10 then "0" ++ toString n else toString n

/-- JavaScript `Number.prototype.toFixed(2)` on the decimal-representable
domain: the sign of the argument, then the magnitude rounded to the nearest
hundredth (ties away from zero, i.e. half-up on the magnitude). -/
def toFixed2 (q : ℚ) : String :=
  let sign := if q < 0 then "-" else ""
  let n : ℕ := (⌊|q| * 100 + 1 / 2⌋).toNat
  sign ++ toString (n / 100) ++ "." ++ pad2 (n % 100)

/-- The change record attached per metric: `{absolute: number, percent: string}`. -/
structure ChangeRecord where
  absolute : ℚ
  percent : String
  deriving DecidableEq, Repr

/-- `calculateChange(newValue, oldValue)` from `server.js`:
```js
if (!newValue || !oldValue) return null;
const newNum = parseFloat(String(newValue).replace(/,/g, ''));
const oldNum = parseFloat(String(oldValue).replace(/,/g, ''));
if (isNaN(newNum) || isNaN(oldNum) || oldNum === 0) return null;
const change = newNum - oldNum;
const changePercent = (change / oldNum) * 100;
return \x7b absolute: change, percent: changePercent.toFixed(2) \x7d;
``` -/
def calculateChange (newValue oldValue : JVal) : Option ChangeRecord :=
  if isFalsy newValue || isFalsy oldValue then none
  else
    match parseMetric newValue, parseMetric oldValue with
    | some newNum, some oldNum =>
      if oldNum = 0 then none
      else some { absolute := newNum - oldNum
                  percent := toFixed2 ((newNum - oldNum) / oldNum * 100) }
    | _, _ => none

/-- The null condition as claim C1 words it: either value is missing or
non-numeric (after removing commas), or the old value is zero.  Missing values
(`null`, `undefined`) parse to `NaN`, so "missing or non-numeric" is exactly
`parseMetric _ = none`. -/
def c1ClaimNullCond (newValue oldValue : JVal) : Prop :=
  parseMetric newValue = none ∨ parseMetric oldValue = none ∨
    parseMetric oldValue = some 0

/-! ## Circuit breaker (AdmissionControl) -/

/-- The three circuit-breaker states; the source string `open` is a Lean
keyword, rendered `opened`. -/
inductive CircuitState where
  | closed
  | opened
  | halfOpen
  deriving DecidableEq, Repr

/-- The module-level breaker variables `circuitBreakerState` and
`failureCount`. -/
structure Breaker where
  circuitBreakerState : CircuitState
  failureCount : ℕ
  deriving DecidableEq, Repr

def FAILURE_THRESHOLD : ℕ := 5

/-- Cool-down before the open circuit turns half-open, in milliseconds. -/
def CIRCUIT_RESET_TIMEOUT : ℕ := 60000

/-- Initial values: `circuitBreakerState = 'closed'`, `failureCount = 0`. -/
def initBreaker : Breaker :=
  { circuitBreakerState := .closed, failureCount := 0 }

/-- `checkCircuitBreaker()`: false exactly while open.  Defined in the source
but never invoked from any request handler or refresh path. -/
def checkCircuitBreaker (b : Breaker) : Bool :=
  if b.circuitBreakerState = .opened then false else true

/-- `recordFailure()`: increment the count; on reaching the threshold, open
the circuit and schedule the cool-down timer (the returned delay). -/
def recordFailure (b : Breaker) : Breaker × Option ℕ :=
  let fc := b.failureCount + 1
  if FAILURE_THRESHOLD ≤ fc then
    ({ circuitBreakerState := .opened, failureCount := fc },
      some CIRCUIT_RESET_TIMEOUT)
  else
    ({ b with failureCount := fc }, none)

/-- `recordSuccess()`: reset the count; a half-open circuit closes. -/
def recordSuccess (b : Breaker) : Breaker :=
  { circuitBreakerState :=
      if b.circuitBreakerState = .halfOpen then .closed
      else b.circuitBreakerState
    failureCount := 0 }

/-- The scheduled cool-down callback: unconditionally set half-open. -/
def cooldownElapsed (b : Breaker) : Breaker :=
  { b with circuitBreakerState := .halfOpen }

/-! ## Upstream fetcher (BithumbFetcher) -/

/-- One entry of the exchange's coin directory (`coinList`). -/
structure CoinInfo where
  coinSymbol : String
  coinType : String
  coinName : String
  coinNameEn : String
  deriving DecidableEq, Repr

/-- The per-asset record assembled by `fetchCoinDetails`. -/
structure CoinData where
  symbol : String
  code : String
  name_kr : String
  name_en : String
  circulation : JVal
  circulation_change : JVal
  holders : JVal
  holder_influence : JVal
  trader_influence : JVal
  deriving DecidableEq, Repr

/-- Outcome of one metric sub-call, as `Promise.allSettled` reports it:
rejected, or fulfilled with `response.data?.data` either absent (`none`) or
carrying a payload. -/
inductive SubResult (α : Type) where
  | rejected
  | fulfilled (payload : Option α)
  deriving DecidableEq, Repr

/-- The four parallel sub-call results for one asset: circulation (deposit
amount and change rate), holder count, top-holder share, top-trader share. -/
structure DetailResponses where
  circulation : SubResult (JVal × JVal)
  holders : SubResult JVal
  holderShare : SubResult JVal
  traderShare : SubResult JVal
  deriving DecidableEq, Repr

/-- `fetchCoinDetails(coin)`: every metric field starts at `null` and is only
assigned when its sub-call fulfilled with a payload; identity fields come from
the directory entry.  The function never throws: `Promise.allSettled` absorbs
every sub-call rejection. -/
def fetchCoinDetails (coin : CoinInfo) (r : DetailResponses) : CoinData :=
  { symbol := coin.coinSymbol
    code := coin.coinType
    name_kr := coin.coinName
    name_en := coin.coinNameEn
    circulation :=
      match r.circulation with
      | .fulfilled (some d) => d.1
      | _ => .jnull
    circulation_change :=
      match r.circulation with
      | .fulfilled (some d) => d.2
      | _ => .jnull
    holders :=
      match r.holders with
      | .fulfilled (some d) => d
      | _ => .jnull
    holder_influence :=
      match r.holderShare with
      | .fulfilled (some d) => d
      | _ => .jnull
    trader_influence :=
      match r.traderShare with
      | .fulfilled (some d) => d
      | _ => .jnull }

/-- `allCoins[symbol] = data`: JS object insertion keeps the position of an
existing key and appends a new one. -/
def upsert (m : List (String × CoinData)) (k : String) (v : CoinData) :
    List (String × CoinData) :=
  match m with
  | [] => [(k, v)]
  | (k', v') :: rest =>
    if k' = k then (k', v) :: rest else (k', v') :: upsert rest k v

/-- Processing of one directory entry inside `fetchAll`: a rejected detail
fetch is caught and the coin skipped; a fulfilled one is stored under its
symbol. -/
def fetchAllStep (details : CoinInfo → Except Unit DetailResponses)
    (acc : List (String × CoinData)) (coin : CoinInfo) :
    List (String × CoinData) :=
  match details coin with
  | .error _ => acc
  | .ok r => upsert acc (fetchCoinDetails coin r).symbol (fetchCoinDetails coin r)

/-- `fetchAll()`: the directory call first; on a network error the surrounding
catch returns the empty map, as does a response without `coinList`.  Otherwise
the coins are processed in directory order (the batches of 10 only bound
concurrency; the accumulated map is the same as sequential iteration).  The
function always returns a map — it never throws. -/
def fetchAll (dir : SubResult (List CoinInfo))
    (details : CoinInfo → Except Unit DetailResponses) :
    List (String × CoinData) :=
  match dir with
  | .rejected => []
  | .fulfilled none => []
  | .fulfilled (some coinList) => coinList.foldl (fetchAllStep details) []

/-! ## State store and periodic refresh cycle -/

/-- A cache entry: the raw coin record plus the change annotations the
periodic cycle attaches when a previous value exists.  `none` models both an
absent annotation and a `null` change record; `last_update` records whether
the timestamp was stamped. -/
structure AnnCoin where
  base : CoinData
  holders_change : Option ChangeRecord := none
  circulation_30min_change : Option ChangeRecord := none
  holder_influence_change : Option ChangeRecord := none
  trader_influence_change : Option ChangeRecord := none
  prev_holders : Option JVal := none
  prev_circulation : Option JVal := none
  prev_holder_influence : Option JVal := none
  prev_trader_influence : Option JVal := none
  last_update : Bool := false
  deriving DecidableEq, Repr

/-- A fresh cache entry with no change annotations. -/
def plainCoin (d : CoinData) : AnnCoin := { base := d }

/-- `coinsCache[symbol]` lookup. -/
def findCoin (m : List (String × AnnCoin)) (k : String) : Option AnnCoin :=
  match m with
  | [] => none
  | (k', v) :: rest => if k' = k then some v else findCoin rest k

/-- The annotation block of the periodic cycle for one asset with a prior
value: change records per metric, previous values, and the update stamp. -/
def annotateCoin (newData : CoinData) (oldData : AnnCoin) : AnnCoin :=
  { base := newData
    holders_change := calculateChange newData.holders oldData.base.holders
    circulation_30min_change :=
      calculateChange newData.circulation oldData.base.circulation
    holder_influence_change :=
      calculateChange newData.holder_influence oldData.base.holder_influence
    trader_influence_change :=
      calculateChange newData.trader_influence oldData.base.trader_influence
    prev_holders := some oldData.base.holders
    prev_circulation := some oldData.base.circulation
    prev_holder_influence := some oldData.base.holder_influence
    prev_trader_influence := some oldData.base.trader_influence
    last_update := true }

/-- A network call attempted against the exchange. -/
inductive NetCall where
  | fetchAllCall
  | tickerCall (symbol : String)
  | candlestickCall (symbol : String)
  deriving DecidableEq, Repr

/-- The mutable server module state the refresh cycle touches. -/
structure ServerState where
  coinsCache : List (String × AnnCoin)
  previousCache : List (String × AnnCoin)
  breaker : Breaker
  log : List String
  deriving DecidableEq, Repr

/-- What one invocation of `fetchAll` produced for the cycle: a thrown
rejection, or a (possibly empty) map. -/
inductive FetchResult where
  | thrown
  | ok (data : List (String × CoinData))
  deriving DecidableEq, Repr

/-- The 30-minute `setInterval` callback.  It always attempts the upstream
`fetchAll` network call — the circuit breaker is neither consulted nor
updated anywhere in it.  On a throw the catch logs an error and leaves every
cache untouched; an empty result skips the update silently; otherwise the
previous cache is set to the old snapshot and each incoming coin with a prior
entry is annotated with change records. -/
def periodicCycle (s : ServerState) (r : FetchResult) :
    ServerState × List NetCall :=
  let s0 := { s with log := s.log ++ ["30-minute update triggered"] }
  match r with
  | .thrown =>
    ({ s0 with log := s0.log ++ ["Error during periodic update"] },
      [.fetchAllCall])
  | .ok updatedData =>
    if updatedData.isEmpty then (s0, [.fetchAllCall])
    else
      let previousCache := s.coinsCache
      let newCache := updatedData.map (fun p =>
        match findCoin previousCache p.1 with
        | none => (p.1, plainCoin p.2)
        | some oldData => (p.1, annotateCoin p.2 oldData))
      ({ s0 with
          coinsCache := newCache
          previousCache := previousCache
          log := s0.log ++ ["Periodic data update saved with change tracking"] },
        [.fetchAllCall])

/-! ## SSE broadcast hub -/

def MAX_SSE_CONNECTIONS : ℕ := 100

def MAX_SSE_PER_IP : ℕ := 2

/-- The hub registries: active connection ids, per-IP concurrent connection
counts, the id counter, how many upstream fetchers have been created and
started by stream handlers, and the shared snapshot cache. -/
structure HubState where
  sseConnections : List ℕ
  sseConnectionsPerIP : List (String × ℕ)
  connectionIdCounter : ℕ
  fetchersStarted : ℕ
  coinsCache : List (String × AnnCoin)
  deriving DecidableEq, Repr

/-- `sseConnectionsPerIP.get(ip) || 0`. -/
def lookupIP (m : List (String × ℕ)) (ip : String) : ℕ :=
  match m with
  | [] => 0
  | (k, v) :: rest => if k = ip then v else lookupIP rest ip

/-- `sseConnectionsPerIP.set(ip, v)`. -/
def setIP (m : List (String × ℕ)) (ip : String) (v : ℕ) :
    List (String × ℕ) :=
  match m with
  | [] => [(ip, v)]
  | (k, v') :: rest =>
    if k = ip then (k, v) :: rest else (k, v') :: setIP rest ip v

/-- How a `GET /api/stream` request ends: 429 from the per-IP concurrent
connection gate, 503 from the global capacity check, or acceptance with the
new id, the replayed snapshot, and whether a fresh upstream fetcher was
created and started for this connection. -/
inductive SubscribeOutcome where
  | tooManyPerIP
  | tooManyConnections
  | accepted (id : ℕ) (replayed : List AnnCoin) (startedFetcher : Bool)
  deriving DecidableEq, Repr

/-- `GET /api/stream`: the `sseConnectionLimiter` middleware rejects an IP at
its concurrent cap (2); the handler then rejects with 503 when
`sseConnections.size >= MAX_SSE_CONNECTIONS`, leaving every registry
untouched; otherwise it allocates the next id, registers the connection,
bumps the per-IP count, immediately replays the cached snapshot when
non-empty, and creates and starts a new fetcher exactly when the cache is
empty at that moment. -/
def streamSubscribe (s : HubState) (ip : String) :
    HubState × SubscribeOutcome :=
  if MAX_SSE_PER_IP ≤ lookupIP s.sseConnectionsPerIP ip then
    (s, .tooManyPerIP)
  else if MAX_SSE_CONNECTIONS ≤ s.sseConnections.length then
    (s, .tooManyConnections)
  else
    let id := s.connectionIdCounter + 1
    let replayed :=
      if s.coinsCache.isEmpty then [] else s.coinsCache.map Prod.snd
    let started := s.coinsCache.isEmpty
    ({ sseConnections := s.sseConnections ++ [id]
       sseConnectionsPerIP :=
         setIP s.sseConnectionsPerIP ip (lookupIP s.sseConnectionsPerIP ip + 1)
       connectionIdCounter := id
       fetchersStarted := s.fetchersStarted + (if started then 1 else 0)
       coinsCache := s.coinsCache },
      .accepted id replayed started)

/-! ## IP blacklist middleware (AdmissionControl) -/

def MAX_REQUESTS_PER_SECOND : ℕ := 10

/-- Blacklist duration in milliseconds (1 hour). -/
def BLACKLIST_DURATION : ℕ := 3600000

/-- An inbound HTTP request: the client IP and an opaque payload the blacklist
middleware never inspects. -/
structure Request where
  ip : String
  payload : String
  deriving DecidableEq, Repr

/-- The middleware state: per-(ip, second) request counters and the blacklist
with each entry's scheduled `setTimeout` removal time. -/
structure AdmissionState where
  requestCounts : List ((String × ℕ) × ℕ)
  blacklist : List (String × ℕ)
  deriving DecidableEq, Repr

/-- `requestCounts.get(key) || 0`. -/
def lookupCount (m : List ((String × ℕ) × ℕ)) (k : String × ℕ) : ℕ :=
  match m with
  | [] => 0
  | (k', v) :: rest => if k' = k then v else lookupCount rest k

/-- `requestCounts.set(key, v)`. -/
def setCount (m : List ((String × ℕ) × ℕ)) (k : String × ℕ) (v : ℕ) :
    List ((String × ℕ) × ℕ) :=
  match m with
  | [] => [(k, v)]
  | (k', v') :: rest =>
    if k' = k then (k', v) :: rest else (k', v') :: setCount rest k v

/-- `blacklistedIPs.has(ip)` at time `t`: an entry whose scheduled removal has
not fired yet. -/
def isBlacklisted (bl : List (String × ℕ)) (ip : String) (t : ℕ) : Bool :=
  bl.any (fun e => decide (e.1 = ip) && decide (t < e.2))

/-- The occasional counter cleanup: drop buckets more than 10 seconds old. -/
def cleanCounts (m : List ((String × ℕ) × ℕ)) (second : ℕ) :
    List ((String × ℕ) × ℕ) :=
  m.filter (fun e => ! decide (e.1.2 < second - 10))

/-- How the blacklist middleware disposes of a request. -/
inductive MwOutcome where
  | blocked403
  | blocked429
  | passed
  deriving DecidableEq, Repr

/-- The IP blacklist middleware, the first request-processing stage after
compression.  A blacklisted IP is answered 403 immediately — nothing else of
the request is read and no later middleware or route runs.  Otherwise the
per-second counter is checked: at the cap the IP is blacklisted for
`BLACKLIST_DURATION` and answered 429; below it the counter is bumped and the
request passes on.  `clean` models the 1-percent random chance of pruning old
buckets. -/
def ipBlacklistMiddleware (s : AdmissionState) (req : Request) (now : ℕ)
    (clean : Bool) : AdmissionState × MwOutcome :=
  if isBlacklisted s.blacklist req.ip now then (s, .blocked403)
  else
    let second := now / 1000
    let key := (req.ip, second)
    let count := lookupCount s.requestCounts key
    if MAX_REQUESTS_PER_SECOND ≤ count then
      ({ s with blacklist := (req.ip, now + BLACKLIST_DURATION) :: s.blacklist },
        .blocked429)
    else
      let s1 := { s with requestCounts := setCount s.requestCounts key (count + 1) }
      (if clean then { s1 with requestCounts := cleanCounts s1.requestCounts second }
       else s1, .passed)

/-- `n` back-to-back requests from the same client within one second (no
cleanup fires on this trace). -/
def processSeq (s : AdmissionState) (req : Request) (now : ℕ) :
    ℕ → AdmissionState
  | 0 => s
  | n + 1 => processSeq (ipBlacklistMiddleware s req now false).1 req now n

/-! ## Coin symbol validation and the detail endpoint -/

/-- One character of the class `[A-Z0-9]`. -/
def symbolCharOk (c : Char) : Bool :=
  (decide ('A' ≤ c) && decide (c ≤ 'Z')) || (decide ('0' ≤ c) && decide (c ≤ '9'))

/-- The regex test: 2 to 10 characters, all uppercase letters or digits. -/
def matchesSymbolPattern (v : String) : Bool :=
  decide (2 ≤ v.length) && decide (v.length ≤ 10) && v.data.all symbolCharOk

/-- `small.startsWith`-style prefix test on character lists. -/
def isPrefixSeq : List Char → List Char → Bool
  | [], _ => true
  | _ :: _, [] => false
  | a :: as, b :: bs => decide (a = b) && isPrefixSeq as bs

/-- `value.includes(pattern)` on character lists. -/
def containsSeq (p : List Char) : List Char → Bool
  | [] => isPrefixSeq p []
  | c :: rest => isPrefixSeq p (c :: rest) || containsSeq p rest

/-- The dangerous patterns rejected by `isValidCoinSymbol` (the single quote
is written by code point to keep the embedding printable). -/
def dangerousPatterns : List (List Char) :=
  [['.', '.'], ['/'], ['\\'], ['<'], ['>'], ['"'], [Char.ofNat 39], ['%'],
    ['&'], ['$'], ['#'], ['@'], ['!'], ['?'], [':'], [';'],
    ['_', '_', 'p', 'r', 'o', 't', 'o', '_', '_'],
    ['c', 'o', 'n', 's', 't', 'r', 'u', 'c', 't', 'o', 'r'],
    ['p', 'r', 'o', 't', 'o', 't', 'y', 'p', 'e']]

/-- `isValidCoinSymbol(value)`: the format regex must match and no dangerous
pattern may occur (in the source a failure throws, which the validator chain
reports as a validation error). -/
def isValidCoinSymbol (v : String) : Bool :=
  matchesSymbolPattern v &&
    ! dangerousPatterns.any (fun p => containsSeq p v.data)

/-- JS `String.prototype.trim`: drop whitespace from both ends. -/
def jsTrim (s : String) : String :=
  ⟨((s.data.dropWhile Char.isWhitespace).reverse.dropWhile
    Char.isWhitespace).reverse⟩

/-- The express-validator sanitizers applied before validation:
`.trim().toUpperCase()`. -/
def normalizeSymbolParam (raw : String) : String :=
  ⟨(jsTrim raw).data.map Char.toUpper⟩

/-- How a `GET /api/coin/:symbol` request ends in the embedding (the price
payload itself is outside the model). -/
inductive CoinDetailOutcome where
  | invalidSymbol400
  | notFound404
  | detail (symbol : String)
  deriving DecidableEq, Repr

/-- Observable effects of one `GET /api/coin/:symbol` request. -/
structure PipelineTrace where
  outcome : CoinDetailOutcome
  touchedCache : Bool
  upstreamCalls : List NetCall
  deriving DecidableEq, Repr

/-- `GET /api/coin/:symbol`: the validation chain normalizes the raw path
parameter (trim, uppercase) and rejects with a generic 400 before the handler
runs when `isValidCoinSymbol` fails; the handler then looks the symbol up in
the cache (404 when absent) and, for a cached symbol, performs the realtime
ticker call and the candlestick history call. -/
def coinDetailPipeline (cache : List (String × AnnCoin)) (raw : String) :
    PipelineTrace :=
  let symbol := normalizeSymbolParam raw
  if isValidCoinSymbol symbol then
    match findCoin cache symbol with
    | none =>
      { outcome := .notFound404, touchedCache := true, upstreamCalls := [] }
    | some _ =>
      { outcome := .detail symbol, touchedCache := true
        upstreamCalls := [.tickerCall symbol, .candlestickCall symbol] }
  else
    { outcome := .invalidSymbol400, touchedCache := false, upstreamCalls := [] }

/-! ## Sample data for concrete instantiations -/

/-- A representative asset record with string-valued metrics. -/
def sampleCoin : CoinData :=
  { symbol := "BTC", code := "C0101", name_kr := "Bitcoin-KR"
    name_en := "Bitcoin", circulation := .jstr "1000"
    circulation_change := .jstr "5.1", holders := .jstr "1000"
    holder_influence := .jstr "10.5", trader_influence := .jstr "7.2" }

/-- The directory entry of the partial-failure scenario from the fetcher unit
test. -/
def ethInfo : CoinInfo :=
  { coinSymbol := "ETH", coinType := "ETH", coinName := "Ethereum-KR"
    coinNameEn := "Ethereum" }

/-- Sub-call results where both share endpoints rejected, mirroring the unit
test `fetchCoinDetails tolerates partial failures`. -/
def ethResponses : DetailResponses :=
  { circulation := .fulfilled (some (.jstr "500", .jstr "-1.1"))
    holders := .fulfilled (some (.jstr "120"))
    holderShare := .rejected
    traderShare := .rejected }

/-- A hub with no subscribers and a cold (empty) snapshot cache. -/
def emptyHub : HubState :=
  { sseConnections := [], sseConnectionsPerIP := [], connectionIdCounter := 0
    fetchersStarted := 0, coinsCache := [] }

/-- A hub with no subscribers but a warm snapshot cache. -/
def warmHub : HubState :=
  { sseConnections := [], sseConnectionsPerIP := [], connectionIdCounter := 0
    fetchersStarted := 1, coinsCache := [("BTC", plainCoin sampleCoin)] }

/-- A hub whose registry already holds the full 100 connections. -/
def fullHub : HubState :=
  { sseConnections := List.range 100, sseConnectionsPerIP := []
    connectionIdCounter := 100, fetchersStarted := 1
    coinsCache := [("BTC", plainCoin sampleCoin)] }

/-! ## Claim C1: the change computation -/

/-- C1 counterexample: with the number `0` as the new value and the
numeric string "100" as the old value, `calculateChange` returns null although
neither value is missing or non-numeric and the old value is not zero — the
falsiness guard `!newValue` fires on the number 0, so "returns null exactly
when either value is missing or non-numeric or the old value is zero" is
false. -/
theorem calculateChange_c1_exactness_fails :
    calculateChange (.jnum 0) (.jstr "100") = none ∧
    ¬ c1ClaimNullCond (.jnum 0) (.jstr "100") := by
  constructor
  · decide
  · intro h
    rcases h with h | h | h
    · simp [parseMetric] at h
    · simp [parseMetric, stripCommas, jsParseFloat, readDigits, readSign] at h
    · simp [parseMetric, stripCommas, jsParseFloat, readDigits, readSign] at h

/-- C1 amended: `calculateChange` returns null exactly when either value
is falsy (null, undefined, the number 0, the empty string) or either value is
non-numeric after comma removal or the old value parses to zero; otherwise it
returns the record with `absolute = new - old` and
`percent = toFixed2((absolute / old) * 100)` — which is a well-defined finite
rational, never NaN or Infinity, because the divisor is non-zero. -/
theorem calculateChange_spec (newValue oldValue : JVal) :
    (calculateChange newValue oldValue = none ↔
      isFalsy newValue = true ∨ isFalsy oldValue = true ∨
      parseMetric newValue = none ∨ parseMetric oldValue = none ∨
      parseMetric oldValue = some 0) ∧
    (∀ n o : ℚ, parseMetric newValue = some n → parseMetric oldValue = some o →
      isFalsy newValue = false → isFalsy oldValue = false → o ≠ 0 →
      calculateChange newValue oldValue =
        some { absolute := n - o, percent := toFixed2 ((n - o) / o * 100) }) := by
  constructor
  · cases hn : isFalsy newValue with
    | true => simp [calculateChange, hn]
    | false =>
      cases ho : isFalsy oldValue with
      | true => simp [calculateChange, hn, ho]
      | false =>
        cases hpn : parseMetric newValue with
        | none => simp [calculateChange, hn, ho, hpn]
        | some n =>
          cases hpo : parseMetric oldValue with
          | none => simp [calculateChange, hn, ho, hpn, hpo]
          | some o =>
            by_cases hz : o = 0
            · subst hz
              simp [calculateChange, hn, ho, hpn, hpo]
            · simp [calculateChange, hn, ho, hpn, hpo, hz]
  · intro n o hpn hpo hn ho hz
    simp [calculateChange, hn, ho, hpn, hpo, hz]

/-- Witness for the amended C1 at the representative input from the spec:
holders "1000" followed by "1100" yields an absolute change of 100 and a
percent string "10.00". -/
theorem calculateChange_spec_witness :
    calculateChange (.jstr "1100") (.jstr "1000") =
      some { absolute := 100, percent := "10.00" } := by
  have hpn : parseMetric (.jstr "1100") = some 1100 := by
    simp [parseMetric, stripCommas, jsParseFloat, readDigits, readSign]
  have hpo : parseMetric (.jstr "1000") = some 1000 := by
    simp [parseMetric, stripCommas, jsParseFloat, readDigits, readSign]
  have h := (calculateChange_spec (.jstr "1100") (.jstr "1000")).2 1100 1000
    hpn hpo (by decide) (by decide) (by norm_num)
  rw [h]
  have hval : ((1100 : ℚ) - 1000) / 1000 * 100 = 10 := by norm_num
  have hfl : (⌊|(10 : ℚ)| * 100 + 1 / 2⌋ : ℤ) = 1000 := by norm_num
  simp only [Option.some.injEq, ChangeRecord.mk.injEq, hval]
  constructor
  · norm_num
  · have hfl2 : (⌊(10 : ℚ) * 100 + 2⁻¹⌋ : ℤ) = 1000 := by norm_num
    simp [toFixed2, hfl, hfl2]
    decide

/-! ## Claim C10: falsy new values -/

/-- C10: whenever the new metric value is falsy (the number 0, the empty
string, null, or undefined), `calculateChange` returns null regardless of the
old value — so a metric that drops to zero produces no change record even
when both values parse as numbers and the old value is non-zero. -/
theorem calculateChange_falsy_new (newValue oldValue : JVal)
    (h : isFalsy newValue = true) :
    calculateChange newValue oldValue = none := by
  simp [calculateChange, h]

/-- Witness for C10: new value 0 (a parseable number) against old value "50"
(non-zero numeric) still yields null. -/
theorem calculateChange_falsy_new_witness :
    calculateChange (.jnum 0) (.jstr "50") = none :=
  calculateChange_falsy_new (.jnum 0) (.jstr "50") (by decide)

/-! ## Claim C2: the circuit breaker -/

/-- C2 counterexample: with the circuit open, the periodic refresh cycle
still attempts the upstream fetchAll network call — `checkCircuitBreaker`
reports false but no call path consults it, so "while open, every upstream
call fails fast without attempting network I/O" is false on the code. -/
theorem circuitBreaker_open_does_not_gate :
    checkCircuitBreaker { circuitBreakerState := .opened, failureCount := 5 } = false ∧
    (periodicCycle
        { coinsCache := [], previousCache := []
          breaker := { circuitBreakerState := .opened, failureCount := 5 }
          log := [] }
        .thrown).2 = [NetCall.fetchAllCall] :=
  ⟨rfl, rfl⟩

/-- C2 amended: the breaker state machine behaves as claimed — starts
closed with count 0, each failure increments the count, reaching the
threshold of 5 opens the circuit and schedules the 60-second cool-down to
half-open, a success in half-open closes the circuit and resets the count,
and a failure in half-open (the count is at least 4 there on every reachable
trace) re-opens it — and `checkCircuitBreaker` reports false exactly while
open; but the open state gates nothing: the refresh cycle attempts its
upstream call in every breaker state. -/
theorem circuitBreaker_spec :
    (initBreaker.circuitBreakerState = .closed ∧ initBreaker.failureCount = 0) ∧
    (∀ b, (recordFailure b).1.failureCount = b.failureCount + 1) ∧
    (∀ b, FAILURE_THRESHOLD ≤ b.failureCount + 1 →
      (recordFailure b).1.circuitBreakerState = .opened ∧
      (recordFailure b).2 = some CIRCUIT_RESET_TIMEOUT) ∧
    (∀ b, b.failureCount + 1 < FAILURE_THRESHOLD →
      (recordFailure b).1.circuitBreakerState = b.circuitBreakerState ∧
      (recordFailure b).2 = none) ∧
    (∀ b, cooldownElapsed b = { b with circuitBreakerState := .halfOpen }) ∧
    (∀ b, b.circuitBreakerState = .halfOpen →
      recordSuccess b = { circuitBreakerState := .closed, failureCount := 0 }) ∧
    (∀ b, b.circuitBreakerState = .halfOpen → 4 ≤ b.failureCount →
      (recordFailure b).1.circuitBreakerState = .opened) ∧
    (∀ b, checkCircuitBreaker b = false ↔ b.circuitBreakerState = .opened) ∧
    (∀ s r, (periodicCycle s r).2 = [NetCall.fetchAllCall]) := by
  refine ⟨⟨rfl, rfl⟩, ?_, ?_, ?_, ?_, ?_, ?_, ?_, ?_⟩
  · intro b
    by_cases h : FAILURE_THRESHOLD ≤ b.failureCount + 1 <;> simp [recordFailure, h]
  · intro b h
    simp [recordFailure, h]
  · intro b h
    simp [recordFailure, Nat.not_le.mpr h]
  · intro b
    rfl
  · intro b h
    simp [recordSuccess, h]
  · intro b _ h4
    have h5 : FAILURE_THRESHOLD ≤ b.failureCount + 1 := by
      unfold FAILURE_THRESHOLD
      omega
    simp [recordFailure, h5]
  · intro b
    by_cases h : b.circuitBreakerState = .opened <;> simp [checkCircuitBreaker, h]
  · intro s r
    cases r with
    | thrown => rfl
    | ok d => by_cases h : d.isEmpty <;> simp [periodicCycle, h]

/-- Witness for the amended C2 at concrete breaker states: the 5th failure
opens the circuit and schedules the 60-second timer; a half-open success
closes and resets; a half-open failure re-opens. -/
theorem circuitBreaker_spec_witness :
    (recordFailure { circuitBreakerState := .closed, failureCount := 4 }).1.circuitBreakerState = .opened ∧
    (recordFailure { circuitBreakerState := .closed, failureCount := 4 }).2 = some CIRCUIT_RESET_TIMEOUT ∧
    recordSuccess { circuitBreakerState := .halfOpen, failureCount := 5 } =
      { circuitBreakerState := .closed, failureCount := 0 } ∧
    (recordFailure { circuitBreakerState := .halfOpen, failureCount := 5 }).1.circuitBreakerState = .opened :=
  ⟨(circuitBreaker_spec.2.2.1 { circuitBreakerState := .closed, failureCount := 4 } (by decide)).1,
   (circuitBreaker_spec.2.2.1 { circuitBreakerState := .closed, failureCount := 4 } (by decide)).2,
   circuitBreaker_spec.2.2.2.2.2.1 { circuitBreakerState := .halfOpen, failureCount := 5 } rfl,
   circuitBreaker_spec.2.2.2.2.2.2.1 { circuitBreakerState := .halfOpen, failureCount := 5 } rfl (by decide)⟩

/-! ## Claim C7: failed refresh cycles -/

/-- C7 counterexample: a refresh cycle that throws leaves the breaker at
failure count 0 — nothing records the failure with the circuit breaker
(`recordFailure` would have made the count 1); and a cycle that yields no
data logs nothing beyond the trigger line. -/
theorem periodicCycle_no_breaker_recording :
    ((periodicCycle
        { coinsCache := [("BTC", plainCoin sampleCoin)], previousCache := []
          breaker := initBreaker, log := [] } .thrown).1.breaker = initBreaker) ∧
    initBreaker.failureCount = 0 ∧
    (recordFailure initBreaker).1.failureCount = 1 ∧
    ((periodicCycle
        { coinsCache := [("BTC", plainCoin sampleCoin)], previousCache := []
          breaker := initBreaker, log := [] } (.ok [])).1.log =
      ["30-minute update triggered"]) := by
  refine ⟨rfl, rfl, ?_, rfl⟩
  decide

/-- C7 amended: if a periodic refresh cycle fails — fetchAll throws or
yields no data — the snapshot cache, the previous snapshot and the circuit
breaker are all left completely unchanged (stale-but-available); a thrown
error is logged, while an empty result is skipped silently; the failure is
not recorded with the circuit breaker. -/
theorem periodicCycle_failure_frame (s : ServerState) (r : FetchResult)
    (hfail : r = .thrown ∨ r = .ok []) :
    ((periodicCycle s r).1.coinsCache = s.coinsCache) ∧
    ((periodicCycle s r).1.previousCache = s.previousCache) ∧
    ((periodicCycle s r).1.breaker = s.breaker) ∧
    (r = .thrown → (periodicCycle s r).1.log =
      s.log ++ ["30-minute update triggered", "Error during periodic update"]) ∧
    (r = .ok [] → (periodicCycle s r).1.log =
      s.log ++ ["30-minute update triggered"]) := by
  rcases hfail with h | h <;> subst h <;> simp [periodicCycle]

/-- Witness for the amended C7: a throwing cycle over a warm one-coin cache
leaves the cache and the breaker as they were. -/
theorem periodicCycle_failure_frame_witness :
    ((periodicCycle
        { coinsCache := [("BTC", plainCoin sampleCoin)], previousCache := []
          breaker := initBreaker, log := [] } .thrown).1.coinsCache =
      [("BTC", plainCoin sampleCoin)]) ∧
    ((periodicCycle
        { coinsCache := [("BTC", plainCoin sampleCoin)], previousCache := []
          breaker := initBreaker, log := [] } .thrown).1.breaker = initBreaker) := by
  have h := periodicCycle_failure_frame
    { coinsCache := [("BTC", plainCoin sampleCoin)], previousCache := []
      breaker := initBreaker, log := [] } .thrown (Or.inl rfl)
  exact ⟨h.1, h.2.2.1⟩

/-! ## Claim C8: directory failure aborts the fetch -/

/-- C8: when the initial asset-directory call fails — the request rejects,
or the response carries no coin list — `fetchAll` yields the empty map: no
partial directory and no per-asset results from that cycle, whatever the
per-asset detail results would have been. -/
theorem fetchAll_directory_failure (details : CoinInfo → Except Unit DetailResponses) :
    fetchAll .rejected details = [] ∧ fetchAll (.fulfilled none) details = [] :=
  ⟨rfl, rfl⟩

/-! ## Claim C5: partial-failure tolerance of the fetcher -/

/-- Key membership after an upsert: the inserted key and every previous key. -/
lemma mem_keys_upsert (m : List (String × CoinData)) (k key : String)
    (v : CoinData) :
    key ∈ (upsert m k v).map Prod.fst ↔ key = k ∨ key ∈ m.map Prod.fst := by
  induction m with
  | nil => simp [upsert]
  | cons p rest ih =>
    obtain ⟨k', v'⟩ := p
    by_cases h : k' = k
    · subst h
      simp [upsert]
    · simp [upsert, h, ih]
      tauto

/-- One `fetchAll` step never loses a key already accumulated. -/
lemma mem_keys_fetchAllStep (details : CoinInfo → Except Unit DetailResponses)
    (acc : List (String × CoinData)) (c : CoinInfo) (key : String)
    (h : key ∈ acc.map Prod.fst) :
    key ∈ (fetchAllStep details acc c).map Prod.fst := by
  unfold fetchAllStep
  cases details c with
  | error e => exact h
  | ok r => exact (mem_keys_upsert _ _ _ _).mpr (Or.inr h)

/-- Folding further directory entries never loses a key already accumulated. -/
lemma mem_keys_foldl_mono (details : CoinInfo → Except Unit DetailResponses)
    (l : List CoinInfo) :
    ∀ acc key, key ∈ acc.map Prod.fst →
      key ∈ (l.foldl (fetchAllStep details) acc).map Prod.fst := by
  induction l with
  | nil =>
    intro acc key h
    simpa using h
  | cons c rest ih =>
    intro acc key h
    exact ih _ _ (mem_keys_fetchAllStep details acc c key h)

/-- A directory entry whose detail fetch fulfills ends up in the accumulated
map under its symbol. -/
lemma mem_keys_foldl (details : CoinInfo → Except Unit DetailResponses)
    (l : List CoinInfo) :
    ∀ acc (coin : CoinInfo) (r : DetailResponses), coin ∈ l →
      details coin = .ok r →
      coin.coinSymbol ∈ (l.foldl (fetchAllStep details) acc).map Prod.fst := by
  induction l with
  | nil =>
    intro acc coin r h
    simp at h
  | cons c rest ih =>
    intro acc coin r hmem hok
    rcases List.mem_cons.mp hmem with h | h
    · subst h
      rw [List.foldl_cons]
      apply mem_keys_foldl_mono
      unfold fetchAllStep
      rw [hok]
      exact (mem_keys_upsert _ _ _ _).mpr (Or.inl rfl)
    · rw [List.foldl_cons]
      exact ih _ coin r h hok

/-- C5: each of the four sub-calls contributes its payload to the asset
record when it succeeds and leaves exactly its own metric null when it fails;
a sub-call failure never drops the asset from the batch or the overall fetch,
and both `fetchCoinDetails` and `fetchAll` are total — they never throw. -/
theorem fetchCoinDetails_partial_tolerance :
    (∀ coin r d, r.circulation = .fulfilled (some d) →
      (fetchCoinDetails coin r).circulation = d.1 ∧
      (fetchCoinDetails coin r).circulation_change = d.2) ∧
    (∀ coin r, r.circulation = .rejected →
      (fetchCoinDetails coin r).circulation = .jnull ∧
      (fetchCoinDetails coin r).circulation_change = .jnull) ∧
    (∀ coin r d, r.holders = .fulfilled (some d) →
      (fetchCoinDetails coin r).holders = d) ∧
    (∀ coin r, r.holders = .rejected →
      (fetchCoinDetails coin r).holders = .jnull) ∧
    (∀ coin r d, r.holderShare = .fulfilled (some d) →
      (fetchCoinDetails coin r).holder_influence = d) ∧
    (∀ coin r, r.holderShare = .rejected →
      (fetchCoinDetails coin r).holder_influence = .jnull) ∧
    (∀ coin r d, r.traderShare = .fulfilled (some d) →
      (fetchCoinDetails coin r).trader_influence = d) ∧
    (∀ coin r, r.traderShare = .rejected →
      (fetchCoinDetails coin r).trader_influence = .jnull) ∧
    (∀ coin r, (fetchCoinDetails coin r).symbol = coin.coinSymbol) ∧
    (∀ coinList (details : CoinInfo → Except Unit DetailResponses) coin r,
      coin ∈ coinList → details coin = .ok r →
      coin.coinSymbol ∈ (fetchAll (.fulfilled (some coinList)) details).map Prod.fst) := by
  refine ⟨?_, ?_, ?_, ?_, ?_, ?_, ?_, ?_, ?_, ?_⟩
  · intro coin r d h
    exact ⟨by simp [fetchCoinDetails, h], by simp [fetchCoinDetails, h]⟩
  · intro coin r h
    exact ⟨by simp [fetchCoinDetails, h], by simp [fetchCoinDetails, h]⟩
  · intro coin r d h
    simp [fetchCoinDetails, h]
  · intro coin r h
    simp [fetchCoinDetails, h]
  · intro coin r d h
    simp [fetchCoinDetails, h]
  · intro coin r h
    simp [fetchCoinDetails, h]
  · intro coin r d h
    simp [fetchCoinDetails, h]
  · intro coin r h
    simp [fetchCoinDetails, h]
  · intro coin r
    rfl
  · intro coinList details coin r hmem hok
    exact mem_keys_foldl details coinList [] coin r hmem hok

/-- Witness for C5 at the unit test scenario: two sub-calls succeed, the two
share sub-calls fail; the record keeps the successful values, has null for
the failed metrics, and the asset is still present in the overall fetch. -/
theorem fetchCoinDetails_partial_tolerance_witness :
    (fetchCoinDetails ethInfo ethResponses).circulation = .jstr "500" ∧
    (fetchCoinDetails ethInfo ethResponses).holders = .jstr "120" ∧
    (fetchCoinDetails ethInfo ethResponses).holder_influence = .jnull ∧
    (fetchCoinDetails ethInfo ethResponses).trader_influence = .jnull ∧
    "ETH" ∈ (fetchAll (.fulfilled (some [ethInfo]))
      (fun _ => .ok ethResponses)).map Prod.fst := by
  refine ⟨?_, ?_, ?_, ?_, ?_⟩
  · exact (fetchCoinDetails_partial_tolerance.1 ethInfo ethResponses
      (.jstr "500", .jstr "-1.1") rfl).1
  · exact fetchCoinDetails_partial_tolerance.2.2.1 ethInfo ethResponses
      (.jstr "120") rfl
  · exact fetchCoinDetails_partial_tolerance.2.2.2.2.2.1 ethInfo ethResponses rfl
  · exact fetchCoinDetails_partial_tolerance.2.2.2.2.2.2.2.1 ethInfo ethResponses rfl
  · exact fetchCoinDetails_partial_tolerance.2.2.2.2.2.2.2.2.2 [ethInfo]
      (fun _ => .ok ethResponses) ethInfo ethResponses (by simp) rfl

/-! ## Claim C3: the global SSE capacity cap -/

/-- C3: when the subscriber registry already holds `MAX_SSE_CONNECTIONS`
connections, any further subscribe attempt is rejected and every registry —
connections, per-IP counts, the id counter, the fetcher count, the cache — is
left exactly as it was (no resource leak); an attempt that passes the
earlier per-IP gate receives the 503 capacity error. -/
theorem streamSubscribe_capacity (s : HubState) (ip : String)
    (hfull : MAX_SSE_CONNECTIONS ≤ s.sseConnections.length) :
    (streamSubscribe s ip).1 = s ∧
    ((streamSubscribe s ip).2 = .tooManyConnections ∨
      (streamSubscribe s ip).2 = .tooManyPerIP) ∧
    (lookupIP s.sseConnectionsPerIP ip < MAX_SSE_PER_IP →
      (streamSubscribe s ip).2 = .tooManyConnections) := by
  by_cases hip : MAX_SSE_PER_IP ≤ lookupIP s.sseConnectionsPerIP ip
  · refine ⟨by simp [streamSubscribe, hip], Or.inr (by simp [streamSubscribe, hip]), ?_⟩
    intro h
    exact absurd hip (Nat.not_le.mpr h)
  · exact ⟨by simp [streamSubscribe, hip, hfull],
      Or.inl (by simp [streamSubscribe, hip, hfull]),
      fun _ => by simp [streamSubscribe, hip, hfull]⟩

/-- Witness for C3: a hub with 100 registered connections turns a fresh IP
away with 503 and is left unchanged. -/
theorem streamSubscribe_capacity_witness :
    (streamSubscribe fullHub "203.0.113.9").1 = fullHub ∧
    (streamSubscribe fullHub "203.0.113.9").2 = .tooManyConnections := by
  have h := streamSubscribe_capacity fullHub "203.0.113.9"
    (by simp [fullHub, MAX_SSE_CONNECTIONS])
  exact ⟨h.1, h.2.2 (by simp [fullHub, lookupIP, MAX_SSE_PER_IP])⟩

/-! ## Claim C6: one refresh loop per process -/

/-- C6 counterexample: two subscribers connect while the snapshot cache is
still empty; each one creates and starts its own upstream fetcher, so the
second subscriber does not simply attach to the existing stream — two refresh
loops now run in the process. -/
theorem streamSubscribe_second_fetcher :
    (streamSubscribe emptyHub "198.51.100.1").2 = .accepted 1 [] true ∧
    (streamSubscribe (streamSubscribe emptyHub "198.51.100.1").1
      "198.51.100.2").2 = .accepted 2 [] true ∧
    (streamSubscribe (streamSubscribe emptyHub "198.51.100.1").1
      "198.51.100.2").1.fetchersStarted = 2 := by
  refine ⟨?_, ?_, ?_⟩ <;> decide

/-- C6 amended: an accepted subscriber receives the cached snapshot as
replay when the cache is non-empty and triggers no new fetch then; a new
upstream fetcher is created and started exactly when the cache is empty at
connect time — including for every later subscriber that connects while the
cache is still empty, so a single refresh loop is only guaranteed once the
cache has filled. -/
theorem streamSubscribe_fetcher_iff_cache_empty (s : HubState) (ip : String)
    (id : ℕ) (replayed : List AnnCoin) (started : Bool)
    (h : (streamSubscribe s ip).2 = .accepted id replayed started) :
    started = s.coinsCache.isEmpty ∧
    replayed = (if s.coinsCache.isEmpty then [] else s.coinsCache.map Prod.snd) ∧
    (streamSubscribe s ip).1.fetchersStarted =
      s.fetchersStarted + (if s.coinsCache.isEmpty then 1 else 0) := by
  by_cases hip : MAX_SSE_PER_IP ≤ lookupIP s.sseConnectionsPerIP ip
  · simp [streamSubscribe, hip] at h
  · by_cases hfull : MAX_SSE_CONNECTIONS ≤ s.sseConnections.length
    · simp [streamSubscribe, hip, hfull] at h
    · have hs : streamSubscribe s ip =
        ({ sseConnections := s.sseConnections ++ [s.connectionIdCounter + 1]
           sseConnectionsPerIP :=
             setIP s.sseConnectionsPerIP ip (lookupIP s.sseConnectionsPerIP ip + 1)
           connectionIdCounter := s.connectionIdCounter + 1
           fetchersStarted :=
             s.fetchersStarted + (if s.coinsCache.isEmpty then 1 else 0)
           coinsCache := s.coinsCache },
          .accepted (s.connectionIdCounter + 1)
            (if s.coinsCache.isEmpty then [] else s.coinsCache.map Prod.snd)
            s.coinsCache.isEmpty) := by
        simp [streamSubscribe, hip, hfull]
      rw [hs] at h
      injection h with h1 h2 h3
      rw [hs]
      exact ⟨h3.symm, h2.symm, rfl⟩

/-- Witness for the amended C6: a subscriber connecting to a warm cache gets
the replay and starts no fetcher. -/
theorem streamSubscribe_fetcher_iff_cache_empty_witness :
    (streamSubscribe warmHub "198.51.100.3").1.fetchersStarted =
      warmHub.fetchersStarted := by
  have h := streamSubscribe_fetcher_iff_cache_empty warmHub "198.51.100.3"
    1 [plainCoin sampleCoin] false (by decide)
  have h3 := h.2.2
  simpa [warmHub] using h3

/-! ## Claim C4: per-second rate limit and blacklist -/

/-- Updating a counter key makes subsequent lookups of it return the new
value. -/
lemma lookupCount_setCount_self (m : List ((String × ℕ) × ℕ))
    (k : String × ℕ) (v : ℕ) :
    lookupCount (setCount m k v) k = v := by
  induction m with
  | nil => simp [setCount, lookupCount]
  | cons p rest ih =>
    obtain ⟨k', v'⟩ := p
    by_cases h : k' = k
    · simp [setCount, lookupCount, h]
    · simp [setCount, lookupCount, h, ih]

/-- A request from a non-blacklisted IP below the per-second cap passes and
only bumps its own counter. -/
lemma mw_pass_step (s : AdmissionState) (req : Request) (now : ℕ)
    (hbl : isBlacklisted s.blacklist req.ip now = false)
    (hcnt : lookupCount s.requestCounts (req.ip, now / 1000) <
      MAX_REQUESTS_PER_SECOND) :
    (ipBlacklistMiddleware s req now false).1 =
      { s with requestCounts := (setCount s.requestCounts (req.ip, now / 1000)
          (lookupCount s.requestCounts (req.ip, now / 1000) + 1)) } ∧
    (ipBlacklistMiddleware s req now false).2 = .passed := by
  constructor <;> simp [ipBlacklistMiddleware, hbl, Nat.not_le.mpr hcnt]

/-- Unrolling a request sequence from the tail. -/
lemma processSeq_succ_last (req : Request) (now : ℕ) :
    ∀ (k : ℕ) (s : AdmissionState),
      processSeq s req now (k + 1) =
        (ipBlacklistMiddleware (processSeq s req now k) req now false).1 := by
  intro k
  induction k with
  | zero =>
    intro s
    rfl
  | succ n ih =>
    intro s
    rw [show processSeq s req now (n + 1 + 1) =
        processSeq (ipBlacklistMiddleware s req now false).1 req now (n + 1) from rfl]
    rw [ih]
    rfl

/-- As long as the per-second cap is not reached, a burst of requests leaves
the blacklist unchanged and counts up one by one. -/
lemma processSeq_invariant (req : Request) (now : ℕ) :
    ∀ (k : ℕ) (s : AdmissionState) (c : ℕ),
      isBlacklisted s.blacklist req.ip now = false →
      lookupCount s.requestCounts (req.ip, now / 1000) = c →
      c + k ≤ MAX_REQUESTS_PER_SECOND →
      (processSeq s req now k).blacklist = s.blacklist ∧
      lookupCount (processSeq s req now k).requestCounts (req.ip, now / 1000) =
        c + k := by
  intro k
  induction k with
  | zero =>
    intro s c h1 h2 h3
    exact ⟨rfl, by simpa using h2⟩
  | succ n ih =>
    intro s c h1 h2 h3
    have hcnt : lookupCount s.requestCounts (req.ip, now / 1000) <
        MAX_REQUESTS_PER_SECOND := by omega
    have hstep := mw_pass_step s req now h1 hcnt
    have hrec : processSeq s req now (n + 1) =
        processSeq (ipBlacklistMiddleware s req now false).1 req now n := rfl
    rw [hrec, hstep.1]
    have hlk : lookupCount (setCount s.requestCounts (req.ip, now / 1000)
        (lookupCount s.requestCounts (req.ip, now / 1000) + 1))
        (req.ip, now / 1000) = c + 1 := by
      rw [lookupCount_setCount_self, h2]
    have hrest := ih { s with requestCounts := (setCount s.requestCounts
        (req.ip, now / 1000)
        (lookupCount s.requestCounts (req.ip, now / 1000) + 1)) } (c + 1) h1 hlk
      (by omega)
    refine ⟨hrest.1, ?_⟩
    rw [hrest.2]
    omega

/-- C4: an IP that issues 11 requests within one one-second window (10
fill the per-second counter, the 11th trips the cap) is put on the blacklist
with an expiry one hour out; for as long as the blacklist entry lives, every
request from that IP — whatever its payload, whatever the cleanup flag — is
rejected 403 by the very first middleware with the state left unchanged. -/
theorem ipBlacklist_threshold (s : AdmissionState) (ip payload : String)
    (now : ℕ)
    (hbl : isBlacklisted s.blacklist ip now = false)
    (hcnt : lookupCount s.requestCounts (ip, now / 1000) = 0) :
    ((processSeq s ⟨ip, payload⟩ now 11).blacklist =
      (ip, now + BLACKLIST_DURATION) :: s.blacklist) ∧
    (∀ t, t < now + BLACKLIST_DURATION →
      isBlacklisted (processSeq s ⟨ip, payload⟩ now 11).blacklist ip t = true) ∧
    (∀ (req2 : Request) (t : ℕ) (clean : Bool), req2.ip = ip →
      t < now + BLACKLIST_DURATION →
      ipBlacklistMiddleware (processSeq s ⟨ip, payload⟩ now 11) req2 t clean =
        (processSeq s ⟨ip, payload⟩ now 11, .blocked403)) := by
  have hinv := processSeq_invariant ⟨ip, payload⟩ now 10 s 0 hbl hcnt (by decide)
  have hsucc := processSeq_succ_last ⟨ip, payload⟩ now 10 s
  have hbl10 : isBlacklisted (processSeq s ⟨ip, payload⟩ now 10).blacklist ip now = false := by
    rw [hinv.1]
    exact hbl
  have hcnt10 : lookupCount (processSeq s ⟨ip, payload⟩ now 10).requestCounts
      (ip, now / 1000) = 10 := by
    simpa using hinv.2
  have hstep11 : ipBlacklistMiddleware (processSeq s ⟨ip, payload⟩ now 10)
      ⟨ip, payload⟩ now false =
      ({ processSeq s ⟨ip, payload⟩ now 10 with
          blacklist := (ip, now + BLACKLIST_DURATION) ::
            (processSeq s ⟨ip, payload⟩ now 10).blacklist }, .blocked429) := by
    simp [ipBlacklistMiddleware, hbl10, hcnt10, MAX_REQUESTS_PER_SECOND]
  have h11 : processSeq s ⟨ip, payload⟩ now 11 =
      { processSeq s ⟨ip, payload⟩ now 10 with
          blacklist := (ip, now + BLACKLIST_DURATION) ::
            (processSeq s ⟨ip, payload⟩ now 10).blacklist } := by
    rw [hsucc, hstep11]
  refine ⟨?_, ?_, ?_⟩
  · rw [h11]
    simp [hinv.1]
  · intro t ht
    rw [h11]
    simp [isBlacklisted, ht]
  · intro req2 t clean hip2 ht
    have hblt : isBlacklisted (processSeq s ⟨ip, payload⟩ now 11).blacklist
        req2.ip t = true := by
      rw [h11, hip2]
      simp [isBlacklisted, ht]
    simp [ipBlacklistMiddleware, hblt]

/-- Witness for C4: from a clean state, 11 requests at one instant blacklist
the IP; 1000 seconds later a request with a different payload and the cleanup
flag set is still answered 403. -/
theorem ipBlacklist_threshold_witness :
    isBlacklisted (processSeq { requestCounts := [], blacklist := [] }
      { ip := "192.0.2.1", payload := "q" } 1000000 11).blacklist
      "192.0.2.1" 2000000 = true ∧
    (ipBlacklistMiddleware (processSeq { requestCounts := [], blacklist := [] }
        { ip := "192.0.2.1", payload := "q" } 1000000 11)
        { ip := "192.0.2.1", payload := "other-payload" } 2000000 true).2 =
      .blocked403 := by
  have h := ipBlacklist_threshold { requestCounts := [], blacklist := [] }
    "192.0.2.1" "q" 1000000 (by simp [isBlacklisted]) (by simp [lookupCount])
  refine ⟨h.2.1 2000000 (by norm_num [BLACKLIST_DURATION]), ?_⟩
  rw [h.2.2 { ip := "192.0.2.1", payload := "other-payload" } 2000000 true rfl
    (by norm_num [BLACKLIST_DURATION])]

/-! ## Claim C9: symbol validation at the detail endpoint -/

/-- C9 counterexample: the raw path parameter "btc" does not match
[A-Z0-9]{2,10} — the pattern admits no lowercase letters — yet the request is
not rejected: the sanitizer chain uppercases the parameter before validation,
so the handler runs, the cache is consulted and both upstream calls are
made. -/
theorem coinDetail_lowercase_not_rejected :
    matchesSymbolPattern "btc" = false ∧
    coinDetailPipeline [("BTC", plainCoin sampleCoin)] "btc" =
      { outcome := .detail "BTC", touchedCache := true
        upstreamCalls := [.tickerCall "BTC", .candlestickCall "BTC"] } := by
  constructor
  · decide
  · decide

/-- C9 amended: a request whose symbol parameter, after the sanitizer
chain trims and uppercases it, fails `isValidCoinSymbol` is rejected with the
generic 400 validation error before any cache lookup or upstream call; and
conversely nothing reaches the cache or the upstream without the normalized
parameter passing validation. -/
theorem coinDetail_validation :
    (∀ (cache : List (String × AnnCoin)) (raw : String),
      isValidCoinSymbol (normalizeSymbolParam raw) = false →
      coinDetailPipeline cache raw =
        { outcome := .invalidSymbol400, touchedCache := false
          upstreamCalls := [] }) ∧
    (∀ (cache : List (String × AnnCoin)) (raw : String),
      (coinDetailPipeline cache raw).touchedCache = true ∨
        (coinDetailPipeline cache raw).upstreamCalls ≠ [] →
      isValidCoinSymbol (normalizeSymbolParam raw) = true) := by
  have hrej : ∀ (cache : List (String × AnnCoin)) (raw : String),
      isValidCoinSymbol (normalizeSymbolParam raw) = false →
      coinDetailPipeline cache raw =
        { outcome := .invalidSymbol400, touchedCache := false
          upstreamCalls := [] } := by
    intro cache raw h
    simp [coinDetailPipeline, h]
  refine ⟨hrej, ?_⟩
  intro cache raw h
  by_cases hv : isValidCoinSymbol (normalizeSymbolParam raw) = true
  · exact hv
  · rw [hrej cache raw (by simpa using hv)] at h
    simp at h

/-- Witness for the amended C9: the symbol "b@c" normalizes to "B@C", fails
validation, and the request is turned away with 400, touching nothing. -/
theorem coinDetail_validation_witness :
    coinDetailPipeline [("BTC", plainCoin sampleCoin)] "b@c" =
      { outcome := .invalidSymbol400, touchedCache := false
        upstreamCalls := [] } :=
  coinDetail_validation.1 [("BTC", plainCoin sampleCoin)] "b@c" (by decide)
